import Mathlib

/-!
Verification of the AgenticOne chat client core: the persistent conversation
store (`public/conversation-storage.js`), the conversation session controller
(`index.tsx`, `handleSendMessage` / `handleFileChange`), and the guest sign-in
of `auth-oauth2.ts`, shallowly embedded in Lean.

The browser `localStorage` backend is modeled as an ordered association list
from string keys to stored records; `localStorage.key(i)` iterates in list
order (the web platform leaves the order unspecified, so any fixed order is a
realizable behavior).  A stored record is either a parsed conversation record,
a parsed session record, or a `corrupt` blob on which `JSON.parse` throws.
JavaScript objects keyed by strings (`conversations`, `chatHistories`) are
modeled the same way, with `objGet` / `objSet` for property read and write.
-/

/-- Message role: the source uses the string literals "user" and "assistant". -/
inductive Role where
  | user
  | assistant
deriving DecidableEq, Repr

/-- A chat message as built in index.tsx: a role, the text content, and the
optional `agentId` stamped on assistant messages. -/
structure Message where
  role : Role
  content : String
  agentId : Option String
deriving DecidableEq, Repr

/-- JS object property read `obj[k]` on a string-keyed record modeled as an
ordered association list: the first slot with the key, if any. -/
def objGet {α : Type} : List (String × α) → String → Option α
  | [], _ => none
  | p :: t, k => if p.1 = k then some p.2 else objGet t k

/-- JS object property write `obj[k] = v`: overwrites the existing slot in
place, or appends a fresh slot at the end (JS insertion order). -/
def objSet {α : Type} (h : List (String × α)) (k : String) (v : α) : List (String × α) :=
  if h.any (fun p => decide (p.1 = k)) then
    h.map (fun p => if p.1 = k then (k, v) else p)
  else h ++ [(k, v)]

theorem objGet_objSet_self {α : Type} (h : List (String × α)) (k : String) (v : α) :
    objGet (objSet h k v) k = some v := by
  unfold objSet
  by_cases hk : (h.any fun p => decide (p.1 = k)) = true
  · rw [if_pos hk]
    induction h with
    | nil => simp at hk
    | cons p t ih =>
      rw [List.any_cons, Bool.or_eq_true, decide_eq_true_eq] at hk
      by_cases hp : p.1 = k
      · simp [List.map_cons, if_pos hp, objGet]
      · simp only [List.map_cons, if_neg hp, objGet]
        exact ih (hk.resolve_left hp)
  · rw [if_neg hk]
    induction h with
    | nil => simp [objGet]
    | cons p t ih =>
      rw [List.any_cons, Bool.or_eq_true, decide_eq_true_eq, not_or] at hk
      rw [List.cons_append]
      simp only [objGet]
      rw [if_neg hk.1]
      exact ih (by simpa using hk.2)

theorem objGet_objSet_ne {α : Type} (h : List (String × α)) (k k' : String) (v : α)
    (hne : k' ≠ k) : objGet (objSet h k v) k' = objGet h k' := by
  have hkk : ¬ (k = k') := fun h' => hne h'.symm
  unfold objSet
  by_cases hk : (h.any fun p => decide (p.1 = k)) = true
  · rw [if_pos hk]; clear hk
    induction h with
    | nil => rfl
    | cons p t ih =>
      by_cases hp : p.1 = k
      · simp only [List.map_cons, if_pos hp, objGet]
        rw [if_neg hkk, if_neg (hp ▸ hkk), ih]
      · simp only [List.map_cons, if_neg hp, objGet]
        rw [ih]
  · rw [if_neg hk]; clear hk
    induction h with
    | nil => simp [objGet, if_neg hkk]
    | cons p t ih =>
      rw [List.cons_append]
      simp only [objGet]
      rw [ih]

/-- `prev[k] || []` : property read defaulting to the empty array. -/
def objGetD (h : List (String × List Message)) (k : String) : List Message :=
  (objGet h k).getD []

theorem objGetD_objSet_self (h : List (String × List Message)) (k : String)
    (v : List Message) : objGetD (objSet h k v) k = v := by
  simp [objGetD, objGet_objSet_self]

theorem objGetD_objSet_ne (h : List (String × List Message)) (k k' : String)
    (v : List Message) (hne : k' ≠ k) : objGetD (objSet h k v) k' = objGetD h k' := by
  simp [objGetD, objGet_objSet_ne h k k' v hne]

/-! ## Attachment and session data (types.ts / index.tsx) -/

/-- Lifecycle status of an attachment (`UploadedFileState.status`). -/
inductive FileStatus where
  | uploading
  | processing
  | ready
deriving DecidableEq, Repr

/-- The inline file payload `{name, mimeType, data}` built by `processFile`. -/
structure FilePayload where
  name : String
  mimeType : String
  data : String
deriving DecidableEq, Repr

/-- `UploadedFileState`: payload plus lifecycle status and progress percent. -/
structure UploadedFileState where
  file : FilePayload
  status : FileStatus
  progress : Nat
deriving DecidableEq, Repr

/-- The per-user session record written by `saveUserSession`
(`{user_email, user_name, selected_agent, rag_sources, uploaded_files, last_session}`). -/
structure SessionData where
  userEmail : String
  userName : String
  selectedAgent : String
  ragSources : List (String × Bool)
  uploadedFiles : List UploadedFileState
  lastSession : String
deriving DecidableEq, Repr

/-! ## The Persistent Conversation Store (public/conversation-storage.js)

A `localStorage` value is a string; the strings this component ever reads are
either `JSON.stringify` output of a conversation record, of a session record,
or foreign/corrupted text on which `JSON.parse` throws.  `StoreVal` models the
three cases at the record level. -/

/-- One persisted `localStorage` value. -/
inductive StoreVal where
  | conv (userEmail agentRole : String) (messages : List Message)
      (lastUpdated : String) (messageCount : Nat)
  | session (data : SessionData)
  | corrupt
deriving DecidableEq, Repr

/-- The `localStorage` backend: ordered key-value pairs; `key(i)` iterates in
list order. -/
abbrev Store := List (String × StoreVal)

/-- `this.storageKeyPrefix` of ConversationStorage. -/
def storageKeyStem : String := "agenticone_conversation_"

/-- `this.userKeyPrefix` of ConversationStorage. -/
def userKeyStem : String := "agenticone_user_"

/-- The conversation storage key `` `${storageKeyPrefix}${userEmail}_${agentRole}` ``. -/
def convKey (userEmail agentRole : String) : String :=
  storageKeyStem ++ userEmail ++ "_" ++ agentRole

/-- The session storage key `` `${userKeyPrefix}${userEmail}` ``. -/
def userKey (userEmail : String) : String := userKeyStem ++ userEmail

/-- JS `s.startsWith(p)` : `p` is a prefix of `s`, decided on the character
lists. -/
def strHasPre (p s : String) : Bool := p.data.isPrefixOf s.data

/-- `saveConversationToLocal(userEmail, agentRole, messages)`: a single
`setItem` of the serialized conversation record (the `Date` timestamp is an
argument). -/
def saveConversationToLocal (st : Store) (userEmail agentRole : String)
    (messages : List Message) (now : String) : Store :=
  objSet st (convKey userEmail agentRole)
    (StoreVal.conv userEmail agentRole messages now messages.length)

/-- `saveUserSession(userEmail, userName, selectedAgent, ragSources, uploadedFiles)`. -/
def saveUserSession (st : Store) (userEmail userName selectedAgent : String)
    (ragSources : List (String × Bool)) (uploadedFiles : List UploadedFileState)
    (now : String) : Store :=
  objSet st (userKey userEmail)
    (StoreVal.session ⟨userEmail, userName, selectedAgent, ragSources, uploadedFiles, now⟩)

/-- The key test of `clearUserData`:
`key.startsWith(storageKeyPrefix + userEmail + "_") || key === userKeyPrefix + userEmail`. -/
def clearMatch (userEmail k : String) : Bool :=
  strHasPre (storageKeyStem ++ userEmail ++ "_") k || decide (k = userKey userEmail)

/-- `clearUserData(userEmail)`: collects every matching key, then removes each
one (collect-then-remove equals a single filter pass). -/
def clearUserData (st : Store) (userEmail : String) : Store :=
  st.filter (fun p => !(clearMatch userEmail p.1))

/-- `JSON.parse(storedData)` followed by `conversationData.messages || []`:
a conversation record yields its messages, any other well-formed JSON value
has no `messages` field and yields `[]`, and a corrupt blob throws (`none`). -/
def parseMessages : StoreVal → Option (List Message)
  | StoreVal.conv _ _ msgs _ _ => some msgs
  | StoreVal.session _ => some []
  | StoreVal.corrupt => none

/-- JS `key.split('_')`: split the character list at every underscore
(`"a_b".split('_') = ["a","b"]`, `"".split('_') = [""]`); the accumulator
holds the current segment reversed. -/
def splitUnderscores : List Char → List Char → List String
  | [], acc => [⟨acc.reverse⟩]
  | c :: rest, acc =>
    if c = '_' then ⟨acc.reverse⟩ :: splitUnderscores rest []
    else splitUnderscores rest (c :: acc)

/-- `key.split('_').pop()` — the comment in the source says "Extract agent
role", but this takes only the text after the LAST underscore of the whole
key (`split` never yields an empty array, so `pop` is total). -/
def lastSeg (k : String) : String := (splitUnderscores k.data []).getLastD ""

/-- The `for (let i = 0; ...)` loop of `getAllUserConversations`, with the
accumulated `conversations` object.  The whole loop runs inside one
`try/catch`, so the first `JSON.parse` failure returns the object accumulated
so far. -/
def getAllLoop (userEmail : String) : Store → List (String × List Message) →
    List (String × List Message)
  | [], acc => acc
  | (k, v) :: rest, acc =>
    if strHasPre (storageKeyStem ++ userEmail ++ "_") k then
      match parseMessages v with
      | some msgs => getAllLoop userEmail rest (objSet acc (lastSeg k) msgs)
      | none => acc
    else getAllLoop userEmail rest acc

/-- `getAllUserConversations(userEmail)`. -/
def getAllUserConversations (st : Store) (userEmail : String) :
    List (String × List Message) :=
  getAllLoop userEmail st []

/-! ## Guest sign-in (auth-oauth2.ts) -/

/-- The `GoogleUser` record of auth-oauth2.ts. -/
structure GoogleUser where
  id : String
  email : String
  name : String
  picture : String
  accessToken : String
deriving DecidableEq, Repr

/-- `signInAsGuest(customName?)`; `Date.now()` is passed in as `now`.
`customName || 'Guest User'` treats the empty string as falsy. -/
def signInAsGuest (customName : Option String) (now : String) : GoogleUser :=
  let guestName := match customName with
    | some n => if n = "" then "Guest User" else n
    | none => "Guest User"
  { id := "guest-" ++ now
    email := "guest@agenticone.com"
    name := guestName
    picture := "https://via.placeholder.com/150/4F46E5/FFFFFF?text="
      ++ (guestName.take 1).toUpper
    accessToken := "guest-token-" ++ now }

/-! ## The Conversation Session Controller (index.tsx, handleSendMessage) -/

/-- The per-specialist message logs object `chatHistories`. -/
abbrev Histories := List (String × List Message)

/-- One iteration of the `for await (const chunk of responseStream)` loop
(index.tsx 514-534): an empty `chunk.text` is skipped; the first non-empty
chunk appends a fresh assistant message stamped with the captured agent id;
every later chunk replaces the last message of the captured agent's log by the
same message with the chunk concatenated onto its content.  The state is the
histories object paired with the `firstChunk` flag. -/
def applyChunk (agent : String) (st : Histories × Bool) (chunkText : String) :
    Histories × Bool :=
  if chunkText = "" then st
  else if st.2 then
    (objSet st.1 agent
      (objGetD st.1 agent ++ [⟨Role.assistant, chunkText, some agent⟩]), false)
  else
    let agentHistory := objGetD st.1 agent
    match agentHistory.getLast? with
    | some lastMessage =>
        (objSet st.1 agent (agentHistory.dropLast
          ++ [{ lastMessage with content := lastMessage.content ++ chunkText }]), false)
    | none => (st.1, false)

/-- The stream loop over a whole chunk list (the `none` branch of `applyChunk`
is unreachable here: `firstChunk` is only false after a message was appended). -/
def applyChunksAux (agent : String) : List String → Histories × Bool → Histories × Bool
  | [], st => st
  | c :: cs, st => applyChunksAux agent cs (applyChunk agent st c)

/-- Consuming the whole response stream, starting with `firstChunk = true`. -/
def applyChunks (agent : String) (chunks : List String) (histories : Histories) :
    Histories :=
  (applyChunksAux agent chunks (histories, true)).1

/-- The outcome of the awaits inside one `handleSendMessage` call:
the input-token estimate throws; or the stream (or the output-token estimate)
fails after some chunks were delivered; or everything succeeds. -/
inductive SendOutcome where
  | estimateError
  | errorAfter (inputTokens : Nat) (delivered : List String)
  | success (inputTokens : Nat) (chunks : List String) (outputTokens : Nat)
deriving DecidableEq, Repr

/-- The React state touched by `handleSendMessage` and `handleFileChange`. -/
structure ChatState where
  selectedAgent : String
  chatHistories : Histories
  input : String
  isLoading : Bool
  isStreaming : Bool
  tokenCount : Nat
  queryHistory : List String
  uploadedFiles : List UploadedFileState
  fileError : Option String
deriving DecidableEq, Repr

/-- JS `input.trim()`: strip leading and trailing whitespace.  Modeled on the
character list so that it evaluates by kernel reduction. -/
def jsTrim (s : String) : String :=
  ⟨((s.data.dropWhile Char.isWhitespace).reverse.dropWhile Char.isWhitespace).reverse⟩

/-- The static apology message of the catch block (index.tsx 544-548). -/
def apologyMessage (agent : String) : Message :=
  ⟨Role.assistant, "Sorry, I encountered an error. Please try again.", some agent⟩

/-- The optimistic user message `{ role: 'user', content: input }`. -/
def userMessageOf (input : String) : Message := ⟨Role.user, input, none⟩

/-- `handleSendMessage` (index.tsx 452-554), with the agent id captured by the
closure passed explicitly (at submit time it equals `s.selectedAgent`) and the
network awaits resolved by `outcome`.  Guard: `!input.trim() || isLoading`.
On passing the guard: clear the input, push the query-history entry (capped at
50), append the optimistic user message, set `isLoading`.  Then: on estimate
success add the input tokens; stream chunks via `applyChunks`; on success add
the output-token estimate; on any failure append the apology message; the
`finally` clears both flags. -/
def runSend (s : ChatState) (capturedAgent : String) (outcome : SendOutcome) :
    ChatState :=
  if jsTrim s.input = "" ∨ s.isLoading then s
  else
    let s1 : ChatState := { s with
      input := ""
      queryHistory := jsTrim s.input :: s.queryHistory.take 49
      chatHistories := objSet s.chatHistories capturedAgent
        (objGetD s.chatHistories capturedAgent ++ [userMessageOf s.input])
      isLoading := true }
    match outcome with
    | SendOutcome.estimateError =>
        { s1 with
          chatHistories := objSet s1.chatHistories capturedAgent
            (objGetD s1.chatHistories capturedAgent ++ [apologyMessage capturedAgent])
          isLoading := false
          isStreaming := false }
    | SendOutcome.errorAfter inputTokens delivered =>
        let s2 : ChatState := { s1 with
          tokenCount := s1.tokenCount + inputTokens
          isLoading := false
          isStreaming := true }
        let h := applyChunks capturedAgent delivered s2.chatHistories
        { s2 with
          chatHistories := objSet h capturedAgent
            (objGetD h capturedAgent ++ [apologyMessage capturedAgent])
          isLoading := false
          isStreaming := false }
    | SendOutcome.success inputTokens chunks outputTokens =>
        let s2 : ChatState := { s1 with
          tokenCount := s1.tokenCount + inputTokens
          isLoading := false
          isStreaming := true }
        { s2 with
          chatHistories := applyChunks capturedAgent chunks s2.chatHistories
          isStreaming := false
          tokenCount := s2.tokenCount + outputTokens
          isLoading := false }

/-! ## Attachment ingestion (index.tsx, handleFileChange) -/

/-- A file in the `e.target.files` batch: name, byte size, MIME type and the
`FileReader` result (`none` models a reader error). -/
structure SelectedFile where
  name : String
  size : Nat
  mimeType : String
  readResult : Option String
deriving DecidableEq, Repr

/-- `MAX_FILES`. -/
def maxFiles : Nat := 5

/-- `MAX_FILE_SIZE_MB`. -/
def maxFileSizeMB : Nat := 10

/-- `MAX_FILE_SIZE_BYTES`. -/
def maxFileSizeBytes : Nat := maxFileSizeMB * 1024 * 1024

/-- `processFile`: an oversized or unreadable file resolves to `null` and sets
the error text; otherwise a new `uploading` entry with progress 0. -/
def processFile (f : SelectedFile) : Option UploadedFileState × Option String :=
  if f.size > maxFileSizeBytes then
    (none, some ("File \x22" ++ f.name ++ "\x22 exceeds the "
      ++ toString maxFileSizeMB ++ "MB size limit."))
  else
    match f.readResult with
    | some base64Data =>
        (some { file := { name := f.name
                          mimeType := if f.mimeType = "" then "application/octet-stream"
                            else f.mimeType
                          data := base64Data }
                status := FileStatus.uploading
                progress := 0 }, none)
    | none => (none, some ("Error reading file \x22" ++ f.name ++ "\x22."))

/-- `handleFileChange` (index.tsx 556-624) up to the cosmetic progress timers:
`none` models a null `e.target.files`.  The error state is reset, then the
count cap is checked for the whole batch before any file is processed; in the
ok branch the non-null results are appended and `fileError` holds the last
error any file produced (or stays cleared). -/
def handleFileChange (s : ChatState) (targetFiles : Option (List SelectedFile)) :
    ChatState :=
  match targetFiles with
  | none => s
  | some filesToUpload =>
    if s.uploadedFiles.length + filesToUpload.length > maxFiles then
      { s with fileError := some ("You can upload a maximum of "
          ++ toString maxFiles ++ " files.") }
    else
      let results := filesToUpload.map processFile
      { s with
        uploadedFiles := s.uploadedFiles ++ results.filterMap Prod.fst
        fileError := (results.filterMap Prod.snd).getLast? }

/-! ## Specification-side values used in theorem statements -/

/-- The ordered concatenation of a list of increment texts. -/
def concatChunks : List String → String
  | [] => ""
  | c :: cs => c ++ concatChunks cs

/-- What a fully consumed stream appends to the captured agent's log: nothing
when every increment is empty, otherwise one assistant message whose content
is the concatenation of all increments. -/
def streamTail (agent : String) (chunks : List String) : List Message :=
  if chunks.all (fun c => decide (c = "")) then []
  else [⟨Role.assistant, concatChunks chunks, some agent⟩]

/-! ## Lemmas about stream assembly -/

theorem applyChunk_empty (agent : String) (st : Histories × Bool) :
    applyChunk agent st "" = st := by
  simp [applyChunk]

theorem applyChunk_first (agent c : String) (h : Histories) (hc : c ≠ "") :
    applyChunk agent (h, true) c
      = (objSet h agent
          (objGetD h agent ++ [⟨Role.assistant, c, some agent⟩]), false) := by
  simp [applyChunk, if_neg hc]

theorem applyChunk_later (agent c : String) (h : Histories) (pre : List Message)
    (m : Message) (hc : c ≠ "") (hm : objGetD h agent = pre ++ [m]) :
    applyChunk agent (h, false) c
      = (objSet h agent (pre ++ [{ m with content := m.content ++ c }]), false) := by
  simp only [applyChunk, if_neg hc]
  simp [hm, List.getLast?_concat, List.dropLast_concat]

theorem applyChunksAux_notFirst (agent : String) :
    ∀ (cs : List String) (h : Histories) (pre : List Message) (m : Message),
      objGetD h agent = pre ++ [m] →
      objGetD (applyChunksAux agent cs (h, false)).1 agent
        = pre ++ [{ m with content := m.content ++ concatChunks cs }] := by
  intro cs
  induction cs with
  | nil =>
    intro h pre m hm
    simp [applyChunksAux, concatChunks, hm]
  | cons c cs ih =>
    intro h pre m hm
    by_cases hc : c = ""
    · subst hc
      simp only [applyChunksAux, applyChunk_empty]
      rw [ih h pre m hm]
      simp [concatChunks]
    · simp only [applyChunksAux, applyChunk_later agent c h pre m hc hm]
      rw [ih _ pre { m with content := m.content ++ c } (objGetD_objSet_self _ _ _)]
      simp [concatChunks, String.append_assoc]

theorem applyChunksAux_frame (agent other : String) (hne : other ≠ agent) :
    ∀ (cs : List String) (st : Histories × Bool),
      objGet (applyChunksAux agent cs st).1 other = objGet st.1 other := by
  intro cs
  induction cs with
  | nil => intro st; rfl
  | cons c cs ih =>
    intro st
    simp only [applyChunksAux]
    rw [ih]
    by_cases hc : c = ""
    · rw [hc, applyChunk_empty]
    · by_cases h2 : st.2 = true
      · have hst : st = (st.1, true) := by rw [← h2]
        rw [hst, applyChunk_first agent c st.1 hc]
        exact objGet_objSet_ne _ _ _ _ hne
      · rw [Bool.not_eq_true] at h2
        have hst : st = (st.1, false) := by rw [← h2]
        rw [hst]
        simp only [applyChunk, if_neg hc]
        cases hlast : (objGetD st.1 agent).getLast? with
        | some lm => simp [hlast, objGet_objSet_ne _ _ _ _ hne]
        | none => simp [hlast]

theorem applyChunks_objGetD (agent : String) :
    ∀ (cs : List String) (h : Histories),
      objGetD (applyChunks agent cs h) agent
        = objGetD h agent ++ streamTail agent cs := by
  intro cs
  induction cs with
  | nil => intro h; simp [applyChunks, applyChunksAux, streamTail]
  | cons c cs ih =>
    intro h
    by_cases hc : c = ""
    · subst hc
      unfold applyChunks at *
      simp only [applyChunksAux, applyChunk_empty]
      rw [ih h]
      congr 1
    · unfold applyChunks
      simp only [applyChunksAux, applyChunk_first agent c h hc]
      rw [applyChunksAux_notFirst agent cs _ (objGetD h agent)
        ⟨Role.assistant, c, some agent⟩ (objGetD_objSet_self _ _ _)]
      simp [streamTail, List.all_cons, hc, concatChunks]

theorem applyChunks_frame (agent other : String) (hne : other ≠ agent)
    (cs : List String) (h : Histories) :
    objGet (applyChunks agent cs h) other = objGet h other := by
  unfold applyChunks
  rw [applyChunksAux_frame agent other hne]

/-! ## Claims about the controller -/

/-- Claim C8: `signInAsGuest` always produces the fixed email
`guest@agenticone.com`, whatever name is entered, so any two guest sign-ins
share every storage key (conversation keys and session key) and hence read,
write and clear the same persisted data. -/
theorem guest_email_fixed (n1 n2 : Option String) (t1 t2 r : String) :
    (signInAsGuest n1 t1).email = "guest@agenticone.com" ∧
    convKey (signInAsGuest n1 t1).email r = convKey (signInAsGuest n2 t2).email r ∧
    userKey (signInAsGuest n1 t1).email = userKey (signInAsGuest n2 t2).email :=
  ⟨rfl, rfl, rfl⟩

/-- Claim C9: when the already-uploaded files plus the newly selected batch
exceed `MAX_FILES = 5`, `handleFileChange` rejects the whole batch: the
attachment list is unchanged and only the error message is set, even if some
batch files would individually fit. -/
theorem fileChange_batch_rejected (s : ChatState) (batch : List SelectedFile)
    (hover : s.uploadedFiles.length + batch.length > maxFiles) :
    (handleFileChange s (some batch)).uploadedFiles = s.uploadedFiles ∧
    (handleFileChange s (some batch)).fileError
      = some ("You can upload a maximum of " ++ toString maxFiles ++ " files.") := by
  simp only [handleFileChange]
  rw [if_pos hover]
  exact ⟨rfl, rfl⟩

def c9Existing : UploadedFileState :=
  ⟨⟨"a.txt", "text/plain", "QQ=="⟩, FileStatus.ready, 100⟩

def c9State : ChatState :=
  { selectedAgent := "METHODS_SPECIALIST", chatHistories := [], input := ""
    isLoading := false, isStreaming := false, tokenCount := 0, queryHistory := []
    uploadedFiles := [c9Existing, c9Existing, c9Existing, c9Existing]
    fileError := none }

def c9Batch : List SelectedFile :=
  [⟨"b.txt", 1, "text/plain", some "QQ=="⟩, ⟨"c.txt", 1, "text/plain", some "QQ=="⟩]

/-- Claim C9 witness: four files already attached, a batch of two small files
(each far below the 10 MB cap) is rejected wholesale. -/
theorem fileChange_batch_rejected_witness :
    c9State.uploadedFiles.length + c9Batch.length > maxFiles ∧
    (handleFileChange c9State (some c9Batch)).uploadedFiles = c9State.uploadedFiles ∧
    (handleFileChange c9State (some c9Batch)).fileError
      = some "You can upload a maximum of 5 files." := by
  have h := fileChange_batch_rejected c9State c9Batch (by decide)
  exact ⟨by decide, h.1, by rw [h.2]; decide⟩

/-- Claim C5: the increments of an in-flight stream only ever mutate the log
of the agent captured at send time; for any other agent `b` (in particular
one selected mid-stream), both the chunk loop and the whole send leave `b`'s
log untouched. -/
theorem send_captured_agent_frame (a b : String) (cs : List String) (h : Histories)
    (s : ChatState) (o : SendOutcome) (hne : b ≠ a) :
    objGet (applyChunks a cs h) b = objGet h b ∧
    objGet (runSend s a o).chatHistories b = objGet s.chatHistories b := by
  refine ⟨applyChunks_frame a b hne cs h, ?_⟩
  simp only [runSend]
  by_cases hg : jsTrim s.input = "" ∨ s.isLoading
  · rw [if_pos hg]
  · rw [if_neg hg]
    cases o with
    | estimateError =>
        rw [objGet_objSet_ne _ _ _ _ hne, objGet_objSet_ne _ _ _ _ hne]
    | errorAfter t d =>
        rw [objGet_objSet_ne _ _ _ _ hne, applyChunks_frame a b hne,
          objGet_objSet_ne _ _ _ _ hne]
    | success t cs' t2 =>
        rw [applyChunks_frame a b hne, objGet_objSet_ne _ _ _ _ hne]

def c5Before : Histories :=
  [("CORROSION_ENGINEER", [⟨Role.assistant, "welcome", some "CORROSION_ENGINEER"⟩])]

def c5State : ChatState :=
  { selectedAgent := "CORROSION_ENGINEER", chatHistories := c5Before, input := "q"
    isLoading := false, isStreaming := false, tokenCount := 0, queryHistory := []
    uploadedFiles := [], fileError := none }

/-- Claim C5 witness: a send captured for METHODS_SPECIALIST leaves the
CORROSION_ENGINEER log byte-for-byte unchanged. -/
theorem send_captured_agent_frame_witness :
    objGet (applyChunks "METHODS_SPECIALIST" ["Hi", " there"] c5Before)
        "CORROSION_ENGINEER" = objGet c5Before "CORROSION_ENGINEER" ∧
    objGet (runSend c5State "METHODS_SPECIALIST"
        (SendOutcome.success 1 ["Hi", " there"] 1)).chatHistories
        "CORROSION_ENGINEER" = objGet c5State.chatHistories "CORROSION_ENGINEER" :=
  send_captured_agent_frame "METHODS_SPECIALIST" "CORROSION_ENGINEER"
    ["Hi", " there"] c5Before c5State (SendOutcome.success 1 ["Hi", " there"] 1)
    (by decide)

/-- Claim C6: a send whose stream delivers at least one non-empty increment
ends with exactly one new assistant message whose content is the ordered
concatenation of all increment texts; its other fields (role `assistant`,
the captured agent id) are the ones set at the first non-empty increment and
are preserved by every later single-field content update. -/
theorem send_concatenation (s : ChatState) (a : String) (tin tout : Nat)
    (cs : List String) (h1 : jsTrim s.input ≠ "") (h2 : s.isLoading = false)
    (hne : ∃ c ∈ cs, c ≠ "") :
    objGetD (runSend s a (SendOutcome.success tin cs tout)).chatHistories a
      = objGetD s.chatHistories a ++ [userMessageOf s.input]
        ++ [⟨Role.assistant, concatChunks cs, some a⟩] := by
  have hg : ¬ (jsTrim s.input = "" ∨ s.isLoading) := by simp [h1, h2]
  have hall : cs.all (fun c => decide (c = "")) = false := by
    obtain ⟨c, hc, hcne⟩ := hne
    rw [Bool.eq_false_iff]
    intro hall
    rw [List.all_eq_true] at hall
    exact hcne (by simpa using hall c hc)
  simp only [runSend]
  rw [if_neg hg, applyChunks_objGetD, objGetD_objSet_self]
  unfold streamTail
  rw [hall]
  simp

def c6State : ChatState :=
  { selectedAgent := "METHODS_SPECIALIST", chatHistories := [], input := "hello"
    isLoading := false, isStreaming := false, tokenCount := 0, queryHistory := []
    uploadedFiles := [], fileError := none }

/-- Claim C6 witness: three increments ("Hi", an empty one, " there") end in
one assistant message reading "Hi there". -/
theorem send_concatenation_witness :
    objGetD (runSend c6State "METHODS_SPECIALIST"
        (SendOutcome.success 3 ["Hi", "", " there"] 4)).chatHistories
        "METHODS_SPECIALIST"
      = [userMessageOf "hello",
         ⟨Role.assistant, "Hi there", some "METHODS_SPECIALIST"⟩] := by
  have h := send_concatenation c6State "METHODS_SPECIALIST" 3 4 ["Hi", "", " there"]
    (by decide) rfl ⟨"Hi", by decide, by decide⟩
  rw [h]
  decide

/-- Claim C7: on a failure of the token-estimate call (`estimateError`) or of
the stream after some increments (`errorAfter`), exactly one static apology
assistant message is appended to the captured agent's log, the partial
response already assembled from the delivered increments is left in place
(not rolled back), and both flags return to the Idle state. -/
theorem send_error_appends_apology (s : ChatState) (a : String) (tin : Nat)
    (d : List String) (h1 : jsTrim s.input ≠ "") (h2 : s.isLoading = false) :
    ((runSend s a (SendOutcome.errorAfter tin d)).isLoading = false ∧
     (runSend s a (SendOutcome.errorAfter tin d)).isStreaming = false ∧
     objGetD (runSend s a (SendOutcome.errorAfter tin d)).chatHistories a
       = objGetD s.chatHistories a ++ [userMessageOf s.input]
         ++ streamTail a d ++ [apologyMessage a]) ∧
    ((runSend s a SendOutcome.estimateError).isLoading = false ∧
     (runSend s a SendOutcome.estimateError).isStreaming = false ∧
     objGetD (runSend s a SendOutcome.estimateError).chatHistories a
       = objGetD s.chatHistories a ++ [userMessageOf s.input]
         ++ [apologyMessage a]) := by
  have hg : ¬ (jsTrim s.input = "" ∨ s.isLoading) := by simp [h1, h2]
  simp only [runSend, if_neg hg]
  refine ⟨⟨trivial, trivial, ?_⟩, ⟨trivial, trivial, ?_⟩⟩
  · rw [objGetD_objSet_self, applyChunks_objGetD, objGetD_objSet_self]
  · rw [objGetD_objSet_self, objGetD_objSet_self]

def c7State : ChatState :=
  { selectedAgent := "SUBSEA_ENGINEER", chatHistories := [], input := "go"
    isLoading := false, isStreaming := false, tokenCount := 7, queryHistory := []
    uploadedFiles := [], fileError := none }

/-- Claim C7 witness: a stream failing after delivering "par" leaves the
partial assistant message and appends the single apology. -/
theorem send_error_appends_apology_witness :
    objGetD (runSend c7State "SUBSEA_ENGINEER"
        (SendOutcome.errorAfter 2 ["par"])).chatHistories "SUBSEA_ENGINEER"
      = [userMessageOf "go", ⟨Role.assistant, "par", some "SUBSEA_ENGINEER"⟩,
         apologyMessage "SUBSEA_ENGINEER"] ∧
    (runSend c7State "SUBSEA_ENGINEER"
        (SendOutcome.errorAfter 2 ["par"])).isStreaming = false := by
  have h := send_error_appends_apology c7State "SUBSEA_ENGINEER" 2 ["par"]
    (by decide) rfl
  exact ⟨by rw [h.1.2.2]; decide, h.1.2.1⟩

/-- Claim C10: if every increment of the stream is empty, no assistant message
is appended — the captured agent's log ends with the optimistic user
message — the token budget still grows by both estimates, both flags return
to Idle, and the file-error message is untouched. -/
theorem send_empty_stream (s : ChatState) (a : String) (tin tout : Nat)
    (cs : List String) (h1 : jsTrim s.input ≠ "") (h2 : s.isLoading = false)
    (hempty : ∀ c ∈ cs, c = "") :
    objGetD (runSend s a (SendOutcome.success tin cs tout)).chatHistories a
      = objGetD s.chatHistories a ++ [userMessageOf s.input] ∧
    (runSend s a (SendOutcome.success tin cs tout)).tokenCount
      = s.tokenCount + tin + tout ∧
    (runSend s a (SendOutcome.success tin cs tout)).isLoading = false ∧
    (runSend s a (SendOutcome.success tin cs tout)).isStreaming = false ∧
    (runSend s a (SendOutcome.success tin cs tout)).fileError = s.fileError := by
  have hg : ¬ (jsTrim s.input = "" ∨ s.isLoading) := by simp [h1, h2]
  have hall : cs.all (fun c => decide (c = "")) = true := by
    rw [List.all_eq_true]
    intro c hc
    simpa using hempty c hc
  simp only [runSend]
  rw [if_neg hg]
  refine ⟨?_, rfl, rfl, rfl, rfl⟩
  rw [applyChunks_objGetD, objGetD_objSet_self]
  unfold streamTail
  rw [hall]
  simp

def c10State : ChatState :=
  { selectedAgent := "DISCIPLINE_HEAD", chatHistories := [], input := "hi"
    isLoading := false, isStreaming := false, tokenCount := 10, queryHistory := []
    uploadedFiles := [], fileError := none }

/-- Claim C10 witness: two empty increments append nothing; token budget grows
by 5 + 1. -/
theorem send_empty_stream_witness :
    objGetD (runSend c10State "DISCIPLINE_HEAD"
        (SendOutcome.success 5 ["", ""] 1)).chatHistories "DISCIPLINE_HEAD"
      = [userMessageOf "hi"] ∧
    (runSend c10State "DISCIPLINE_HEAD"
        (SendOutcome.success 5 ["", ""] 1)).tokenCount = 16 := by
  have h := send_empty_stream c10State "DISCIPLINE_HEAD" 5 1 ["", ""]
    (by decide) rfl (by decide)
  exact ⟨by rw [h.1]; decide, h.2.1⟩

/-- Claim C2 (amended): a submit is rejected — the whole send is a no-op —
whenever the input is blank or `isLoading` is set; `isLoading` covers the
window from submit until the stream opens, but not the streaming phase
itself, during which `isLoading` is false and a fresh submit is accepted. -/
theorem submit_rejected_while_loading (s : ChatState) (a : String)
    (o : SendOutcome) (h : jsTrim s.input = "" ∨ s.isLoading = true) :
    runSend s a o = s := by
  unfold runSend
  rw [if_pos h]

def c2LoadingState : ChatState :=
  { selectedAgent := "METHODS_SPECIALIST", chatHistories := [], input := "hi"
    isLoading := true, isStreaming := false, tokenCount := 0, queryHistory := []
    uploadedFiles := [], fileError := none }

/-- Claim C2 witness: while `isLoading` is set, a submit with non-empty input
changes nothing. -/
theorem submit_rejected_while_loading_witness :
    runSend c2LoadingState "METHODS_SPECIALIST"
      (SendOutcome.success 1 ["x"] 1) = c2LoadingState :=
  submit_rejected_while_loading c2LoadingState "METHODS_SPECIALIST"
    (SendOutcome.success 1 ["x"] 1) (Or.inr rfl)

/-- A state in which a response stream is actively being consumed
(`isStreaming` true, `isLoading` already reset) with non-empty input typed. -/
def streamingState : ChatState :=
  { selectedAgent := "METHODS_SPECIALIST"
    chatHistories := [("METHODS_SPECIALIST",
      [⟨Role.assistant, "partial", some "METHODS_SPECIALIST"⟩])]
    input := "second question"
    isLoading := false, isStreaming := true, tokenCount := 0, queryHistory := []
    uploadedFiles := [], fileError := none }

/-- Claim C2 counterexample: in a state that is actively streaming
(`isStreaming = true`) the guard does not fire — `isLoading` is false during
streaming — so the submit is accepted: the optimistic user message is appended
and a second completion stream is consumed, refuting "a submit action with
non-empty input is rejected" mid-stream. -/
theorem submit_accepted_while_streaming :
    streamingState.isStreaming = true ∧ jsTrim streamingState.input ≠ "" ∧
    objGetD (runSend streamingState "METHODS_SPECIALIST"
        (SendOutcome.success 1 ["Hi"] 1)).chatHistories "METHODS_SPECIALIST"
      = [⟨Role.assistant, "partial", some "METHODS_SPECIALIST"⟩,
         userMessageOf "second question",
         ⟨Role.assistant, "Hi", some "METHODS_SPECIALIST"⟩] :=
  ⟨rfl, by decide, by decide⟩

/-! ## Claims about the Persistent Conversation Store -/

def c1Messages : List Message := [⟨Role.user, "hello", none⟩]

def c1Store : Store :=
  saveConversationToLocal [] "alice@example.com" "METHODS_SPECIALIST"
    c1Messages "2026-01-01T00:00:00Z"

/-- Claim C1 (code bug): a single save for specialist METHODS_SPECIALIST
followed by `getAllUserConversations` does not reproduce the mapping at the
specialist key — `key.split('_').pop()` keeps only the text after the last
underscore, so the saved log resurfaces under "SPECIALIST" while the full
specialist id maps to nothing.  Every agent id of this app contains an
underscore, and the hydration code in index.tsx looks the logs up under the
full ids, so a stored conversation is never found again. -/
theorem roundTrip_key_truncated :
    getAllUserConversations c1Store "alice@example.com"
      = [("SPECIALIST", c1Messages)] ∧
    objGet (getAllUserConversations c1Store "alice@example.com")
      "METHODS_SPECIALIST" = none :=
  ⟨by decide, by decide⟩

def c3Store : Store :=
  [(convKey "bob" "A", StoreVal.corrupt),
   (convKey "bob" "B", StoreVal.conv "bob" "B" [⟨Role.user, "ping", none⟩] "t1" 1)]

/-- Claim C3 counterexample: a store with n = 2 conversation records for
"bob", the first malformed.  The claim demands the n-1 = 1 well-formed
records still be returned, but the single function-level try/catch aborts the
whole loop at the malformed entry: the result is empty and the well-formed
"B" record is lost. -/
theorem corrupt_entry_aborts_load :
    getAllUserConversations c3Store "bob" = [] := by decide

theorem getAllLoop_append_corrupt (u k : String) (post : Store) :
    ∀ (pre : Store) (acc : List (String × List Message)),
      (∀ p ∈ pre, strHasPre (storageKeyStem ++ u ++ "_") p.1 = true →
        parseMessages p.2 ≠ none) →
      strHasPre (storageKeyStem ++ u ++ "_") k = true →
      getAllLoop u (pre ++ (k, StoreVal.corrupt) :: post) acc
        = getAllLoop u pre acc := by
  intro pre
  induction pre with
  | nil =>
    intro acc hpre hk
    simp only [List.nil_append, getAllLoop]
    rw [if_pos hk]
    rfl
  | cons p ps ih =>
    obtain ⟨pk, pv⟩ := p
    intro acc hpre hk
    have hp := hpre (pk, pv) (List.mem_cons_self _ _)
    simp only [List.cons_append, getAllLoop]
    by_cases hm : strHasPre (storageKeyStem ++ u ++ "_") pk = true
    · rw [if_pos hm, if_pos hm]
      cases hparse : parseMessages pv with
      | some msgs =>
          exact ih _ (fun q hq hq2 => hpre q (List.mem_cons_of_mem _ hq) hq2) hk
      | none => exact absurd hparse (hp hm)
    · rw [if_neg hm, if_neg hm]
      exact ih _ (fun q hq hq2 => hpre q (List.mem_cons_of_mem _ hq) hq2) hk

/-- Claim C3 (amended): `getAllUserConversations` never throws (it is total),
and when the store holds a malformed entry for the user, the records read
BEFORE it in iteration order are returned while the malformed entry and
everything after it are dropped — the per-entry skip the claim asserts does
not happen, because the try/catch wraps the whole loop. -/
theorem load_returns_entries_before_corrupt (u k : String) (pre post : Store)
    (hpre : ∀ p ∈ pre, strHasPre (storageKeyStem ++ u ++ "_") p.1 = true →
      parseMessages p.2 ≠ none)
    (hk : strHasPre (storageKeyStem ++ u ++ "_") k = true) :
    getAllUserConversations (pre ++ (k, StoreVal.corrupt) :: post) u
      = getAllUserConversations pre u :=
  getAllLoop_append_corrupt u k post pre [] hpre hk

def c3WPre : Store := [(convKey "bob" "A", StoreVal.conv "bob" "A" [] "t" 0)]

/-- Claim C3 witness: a well-formed record, then a corrupt one, then another
well-formed one; the load returns exactly what the corrupt-free head yields. -/
theorem load_returns_entries_before_corrupt_witness :
    getAllUserConversations (c3WPre ++ (convKey "bob" "B", StoreVal.corrupt)
        :: [(convKey "bob" "C", StoreVal.conv "bob" "C" [] "t" 0)]) "bob"
      = getAllUserConversations c3WPre "bob" :=
  load_returns_entries_before_corrupt "bob" (convKey "bob" "B") c3WPre
    [(convKey "bob" "C", StoreVal.conv "bob" "C" [] "t" 0)]
    (by decide) (by decide)

def c4Store : Store :=
  [(convKey "a_b" "ROLE", StoreVal.conv "a_b" "ROLE" [⟨Role.user, "x", none⟩] "t1" 1),
   (userKey "a_b", StoreVal.session ⟨"a_b", "Bee", "ROLE", [], [], "t0"⟩)]

/-- Claim C4 counterexample: "a" and "a_b" are distinct user identifiers, yet
`clearUserData("a")` deletes "a_b"'s conversation record, because the prefix
test `agenticone_conversation_a_` also matches the key
`agenticone_conversation_a_b_ROLE`. -/
theorem clear_removes_other_user_record :
    ("a" : String) ≠ "a_b" ∧
    objGet c4Store (convKey "a_b" "ROLE") ≠ none ∧
    objGet (clearUserData c4Store "a") (convKey "a_b" "ROLE") = none :=
  ⟨by decide, by decide, by decide⟩

theorem objGet_cons_eq {α : Type} (p : String × α) (t : List (String × α))
    (k : String) : objGet (p :: t) k = if p.1 = k then some p.2 else objGet t k := rfl

theorem objGet_clearUserData_removed (st : Store) (u k : String)
    (h : clearMatch u k = true) : objGet (clearUserData st u) k = none := by
  induction st with
  | nil => rfl
  | cons p t ih =>
    unfold clearUserData at ih ⊢
    rw [List.filter_cons]
    by_cases hp : clearMatch u p.1 = true
    · rw [hp]
      exact ih
    · rw [Bool.not_eq_true] at hp
      have hne : p.1 ≠ k := by
        intro he
        rw [he, h] at hp
        cases hp
      rw [hp]
      show objGet (p :: List.filter _ t) k = none
      rw [objGet_cons_eq, if_neg hne]
      exact ih

theorem objGet_clearUserData_kept (st : Store) (u k : String)
    (h : clearMatch u k = false) : objGet (clearUserData st u) k = objGet st k := by
  induction st with
  | nil => rfl
  | cons p t ih =>
    unfold clearUserData at ih ⊢
    rw [List.filter_cons, objGet_cons_eq]
    by_cases hp : clearMatch u p.1 = true
    · have hne : p.1 ≠ k := by
        intro he
        rw [he, h] at hp
        cases hp
      rw [hp, if_neg hne]
      exact ih
    · rw [Bool.not_eq_true] at hp
      rw [hp]
      show objGet (p :: List.filter _ t) k = _
      rw [objGet_cons_eq, ih]

theorem strHasPre_self_append (p r : String) : strHasPre p (p ++ r) = true := by
  unfold strHasPre
  rw [String.data_append]
  simp [List.isPrefixOf_iff_prefix]

theorem strHasPre_cancel_left (a x y : String) :
    strHasPre (a ++ x) (a ++ y) = strHasPre x y := by
  unfold strHasPre
  rw [String.data_append, String.data_append]
  by_cases hxy : x.data <+: y.data
  · have h1 : (a.data ++ x.data) <+: (a.data ++ y.data) :=
      (List.prefix_append_right_inj a.data).mpr hxy
    rw [List.isPrefixOf_iff_prefix.mpr h1, List.isPrefixOf_iff_prefix.mpr hxy]
  · have h1 : ¬ (a.data ++ x.data) <+: (a.data ++ y.data) := fun hc =>
      hxy ((List.prefix_append_right_inj a.data).mp hc)
    have e1 : (a.data ++ x.data).isPrefixOf (a.data ++ y.data) = false :=
      Bool.eq_false_iff.mpr (fun hc => h1 (List.isPrefixOf_iff_prefix.mp hc))
    have e2 : x.data.isPrefixOf y.data = false :=
      Bool.eq_false_iff.mpr (fun hc => hxy (List.isPrefixOf_iff_prefix.mp hc))
    rw [e1, e2]

theorem conv_userKey_disjoint (x y : String) :
    storageKeyStem ++ x ≠ userKeyStem ++ y := by
  intro h
  have hd := congrArg String.data h
  rw [String.data_append, String.data_append] at hd
  have h1 : (storageKeyStem.data ++ x.data).get? 11 = some 'c' := by
    rw [List.get?_append (by decide)]
    decide
  have h2 : (userKeyStem.data ++ y.data).get? 11 = some 'u' := by
    rw [List.get?_append (by decide)]
    decide
  rw [hd, h2] at h1
  exact (by decide : some 'u' ≠ some 'c') h1

theorem conv_pre_userKey_false (u v : String) :
    strHasPre (storageKeyStem ++ u ++ "_") (userKey v) = false := by
  rw [Bool.eq_false_iff]
  intro htrue
  unfold strHasPre at htrue
  rw [List.isPrefixOf_iff_prefix] at htrue
  obtain ⟨t, ht⟩ := htrue
  have h1 : (((storageKeyStem ++ u ++ "_").data) ++ t).get? 11 = some 'c' := by
    rw [String.data_append, String.data_append, List.append_assoc,
      List.append_assoc, List.get?_append (by decide)]
    decide
  have h2 : (userKey v).data.get? 11 = some 'u' := by
    unfold userKey
    rw [String.data_append, List.get?_append (by decide)]
    decide
  rw [ht, h2] at h1
  exact (by decide : some 'u' ≠ some 'c') h1

theorem userKey_inj {v u : String} (h : userKey v = userKey u) : v = u := by
  unfold userKey at h
  have hd := congrArg String.data h
  rw [String.data_append, String.data_append] at hd
  exact String.ext (List.append_cancel_left hd)

/-- Claim C4 (amended): `clearUserData(u)` removes every conversation record
and the session snapshot of `u`; for any other user `v`, `v`'s session
snapshot is always untouched, and `v`'s conversation record for a specialist
`r` is untouched provided `v ++ "_" ++ r` does not begin with `u ++ "_"` —
i.e. unless `v`'s identifier extends `u`'s by an underscore-separated suffix,
in which case the prefix test misfires and `v`'s record is deleted too. -/
theorem clearUserData_spec (st : Store) (u : String) :
    (∀ r, objGet (clearUserData st u) (convKey u r) = none) ∧
    objGet (clearUserData st u) (userKey u) = none ∧
    (∀ v r, strHasPre (u ++ "_") (v ++ "_" ++ r) = false →
      objGet (clearUserData st u) (convKey v r) = objGet st (convKey v r)) ∧
    (∀ v, v ≠ u → objGet (clearUserData st u) (userKey v) = objGet st (userKey v)) := by
  refine ⟨?_, ?_, ?_, ?_⟩
  · intro r
    apply objGet_clearUserData_removed
    unfold clearMatch convKey
    rw [Bool.or_eq_true]
    exact Or.inl (strHasPre_self_append (storageKeyStem ++ u ++ "_") r)
  · apply objGet_clearUserData_removed
    unfold clearMatch
    rw [Bool.or_eq_true]
    exact Or.inr (decide_eq_true rfl)
  · intro v r hpre
    apply objGet_clearUserData_kept
    unfold clearMatch convKey
    rw [Bool.or_eq_false_iff]
    constructor
    · rw [String.append_assoc storageKeyStem u "_",
        String.append_assoc (storageKeyStem ++ v) "_" r,
        String.append_assoc storageKeyStem v ("_" ++ r),
        strHasPre_cancel_left]
      rw [String.append_assoc v "_" r] at hpre
      exact hpre
    · rw [decide_eq_false_iff_not]
      intro he
      rw [String.append_assoc (storageKeyStem ++ v) "_" r,
        String.append_assoc storageKeyStem v ("_" ++ r)] at he
      exact conv_userKey_disjoint (v ++ ("_" ++ r)) u he
  · intro v hv
    apply objGet_clearUserData_kept
    unfold clearMatch
    rw [Bool.or_eq_false_iff]
    exact ⟨conv_pre_userKey_false u v,
      decide_eq_false (fun he => hv (userKey_inj he))⟩

def c4WStore : Store :=
  [(convKey "a" "R", StoreVal.conv "a" "R" [] "t" 0),
   (userKey "a", StoreVal.session ⟨"a", "A", "R", [], [], "t"⟩),
   (convKey "bob" "R", StoreVal.conv "bob" "R" [] "t" 0),
   (userKey "bob", StoreVal.session ⟨"bob", "B", "R", [], [], "t"⟩)]

/-- Claim C4 witness: clearing "a" removes "a"'s record and snapshot and
leaves "bob"'s record and snapshot in place. -/
theorem clearUserData_spec_witness :
    objGet (clearUserData c4WStore "a") (convKey "a" "R") = none ∧
    objGet (clearUserData c4WStore "a") (userKey "a") = none ∧
    objGet (clearUserData c4WStore "a") (convKey "bob" "R")
      = objGet c4WStore (convKey "bob" "R") ∧
    objGet (clearUserData c4WStore "a") (userKey "bob")
      = objGet c4WStore (userKey "bob") := by
  have h := clearUserData_spec c4WStore "a"
  exact ⟨h.1 "R", h.2.1, h.2.2.1 "bob" "R" (by decide), h.2.2.2 "bob" (by decide)⟩
